import Mathlib

/-!
Support measurement strategies (colmap/optim/support_measurement.cc)

A shallow embedding of the three support measurers of
`src/application/src/colmap/optim/support_measurement.cc`:
`InlierSupportMeasurer`, `UniqueInlierSupportMeasurer` and
`MEstimatorSupportMeasurer`, each with its `Evaluate` and `IsLeftBetter`.

Modelling conventions.

* `double` residuals are taken as exact numbers: every definition is generic in
  a linearly ordered field `α`, so the theorems hold over `ℝ`, and the very
  same definitions evaluate over `ℚ` on concrete inputs.
* `std::vector<T>` is `List T`; a range-for loop is a left fold over the list,
  an index loop `for (idx = 0; idx < v.size(); ++idx)` is a left fold over
  `List.range v.length`.
* `size_t` counters are `Nat`: a counter is incremented at most once per vector
  element, and a `std::vector<double>` holds fewer than `2^61` elements, so the
  64-bit counter never wraps.
* `std::unordered_set<size_t>` is `Finset Nat` (`insert` and `card`).
* a thrown check is the `Except.error` branch of `Except CheckError`.
-/

namespace colmap

variable {α : Type}

/-! ## InlierSupportMeasurer -/

namespace InlierSupportMeasurer

/-- Modelled from the spec: the struct `InlierSupportMeasurer::Support` is declared in
`support_measurement.h`, which is not among the sources. The two fields are the ones
the code assigns: the inlier count and the sum of the inlier residuals. -/
structure Support (α : Type) where
  num_inliers : Nat
  residual_sum : α
deriving DecidableEq, Repr

/-- One iteration of the loop body of `InlierSupportMeasurer::Evaluate` (lines 45-48). -/
def EvaluateStep [LinearOrderedField α] (max_residual : α) (support : Support α)
    (residual : α) : Support α :=
  if residual ≤ max_residual then
    { num_inliers := support.num_inliers + 1
      residual_sum := support.residual_sum + residual }
  else
    support

/-- `InlierSupportMeasurer::Evaluate` (lines 38-52). -/
def Evaluate [LinearOrderedField α] (residuals : List α) (max_residual : α) : Support α :=
  residuals.foldl (EvaluateStep max_residual) { num_inliers := 0, residual_sum := 0 }

/-- `InlierSupportMeasurer::IsLeftBetter` (lines 54-62). -/
def IsLeftBetter [LinearOrderedField α] (left right : Support α) : Bool :=
  if left.num_inliers > right.num_inliers then
    true
  else
    left.num_inliers == right.num_inliers && decide (left.residual_sum < right.residual_sum)

end InlierSupportMeasurer

/-! ## UniqueInlierSupportMeasurer -/

/-- The error raised by a failed check. -/
inductive CheckError where
  | check_eq_failed (lhs rhs : Nat)
deriving DecidableEq, Repr

/-- Modelled from the spec: `THROW_CHECK_EQ` comes from `colmap/util/logging.h`, which is
not among the sources. Per the spec, `Evaluate` "must fail fast (signal an error /
violate a precondition check) if the incoming residual vector's length differs from the
stored identifier vector's length": the check passes when its two arguments are equal and
throws otherwise. -/
def THROW_CHECK_EQ (lhs rhs : Nat) : Except CheckError Unit :=
  if lhs = rhs then Except.ok () else Except.error (CheckError.check_eq_failed lhs rhs)

/-- The measurer object: its only member is the identifier vector stored by the
constructor (lines 64-66). -/
structure UniqueInlierSupportMeasurer where
  unique_sample_ids_ : List Nat
deriving DecidableEq, Repr

namespace UniqueInlierSupportMeasurer

/-- Modelled from the spec: the struct `UniqueInlierSupportMeasurer::Support` is declared in
`support_measurement.h`, which is not among the sources. The three fields are the ones
the code assigns: inlier count, distinct inlier-point count, sum of inlier residuals. -/
structure Support (α : Type) where
  num_inliers : Nat
  num_unique_inliers : Nat
  residual_sum : α
deriving DecidableEq, Repr

/-- The local state of the loop of `UniqueInlierSupportMeasurer::Evaluate`: the support
under construction and the set `inlier_point_ids`. -/
structure LoopState (α : Type) where
  support : Support α
  inlier_point_ids : Finset Nat

/-- One iteration of the index loop of `UniqueInlierSupportMeasurer::Evaluate`
(lines 78-82). The accesses `residuals[idx]` and `unique_sample_ids_[idx]` are in bounds
whenever the loop runs (`idx < residuals.size()`, and the sizes were checked equal). -/
def EvaluateStep [LinearOrderedField α] (unique_sample_ids_ : List Nat) (residuals : List α)
    (max_residual : α) (st : LoopState α) (idx : Nat) : LoopState α :=
  if residuals.getD idx 0 ≤ max_residual then
    { support :=
        { num_inliers := st.support.num_inliers + 1
          num_unique_inliers := st.support.num_unique_inliers
          residual_sum := st.support.residual_sum + residuals.getD idx 0 }
      inlier_point_ids := insert (unique_sample_ids_.getD idx 0) st.inlier_point_ids }
  else
    st

/-- The loop of `UniqueInlierSupportMeasurer::Evaluate` (lines 71-83), from the
initialised support and the empty set. -/
def EvaluateLoop [LinearOrderedField α] (unique_sample_ids_ : List Nat) (residuals : List α)
    (max_residual : α) : LoopState α :=
  (List.range residuals.length).foldl (EvaluateStep unique_sample_ids_ residuals max_residual)
    { support := { num_inliers := 0, num_unique_inliers := 0, residual_sum := 0 }
      inlier_point_ids := ∅ }

/-- `UniqueInlierSupportMeasurer::Evaluate` (lines 68-86). -/
def Evaluate [LinearOrderedField α] (self : UniqueInlierSupportMeasurer) (residuals : List α)
    (max_residual : α) : Except CheckError (Support α) :=
  match THROW_CHECK_EQ residuals.length self.unique_sample_ids_.length with
  | Except.error e => Except.error e
  | Except.ok () =>
    let st := EvaluateLoop self.unique_sample_ids_ residuals max_residual
    Except.ok
      { num_inliers := st.support.num_inliers
        num_unique_inliers := st.inlier_point_ids.card
        residual_sum := st.support.residual_sum }

/-- `UniqueInlierSupportMeasurer::IsLeftBetter` (lines 88-102). -/
def IsLeftBetter [LinearOrderedField α] (left right : Support α) : Bool :=
  if left.num_unique_inliers > right.num_unique_inliers then
    true
  else if left.num_unique_inliers == right.num_unique_inliers then
    if left.num_inliers > right.num_inliers then
      true
    else
      left.num_inliers == right.num_inliers && decide (left.residual_sum < right.residual_sum)
  else
    false

end UniqueInlierSupportMeasurer

/-! ## MEstimatorSupportMeasurer -/

namespace MEstimatorSupportMeasurer

/-- Modelled from the spec: the struct `MEstimatorSupportMeasurer::Support` is declared in
`support_measurement.h`, which is not among the sources. The two fields are the ones
the code assigns: the inlier count and the total loss `score`. -/
structure Support (α : Type) where
  num_inliers : Nat
  score : α
deriving DecidableEq, Repr

/-- One iteration of the loop body of `MEstimatorSupportMeasurer::Evaluate`
(lines 111-116). -/
def EvaluateStep [LinearOrderedField α] (max_residual : α) (support : Support α)
    (residual : α) : Support α :=
  if residual ≤ max_residual then
    { num_inliers := support.num_inliers + 1
      score := support.score + residual }
  else
    { num_inliers := support.num_inliers
      score := support.score + max_residual }

/-- `MEstimatorSupportMeasurer::Evaluate` (lines 104-120). -/
def Evaluate [LinearOrderedField α] (residuals : List α) (max_residual : α) : Support α :=
  residuals.foldl (EvaluateStep max_residual) { num_inliers := 0, score := 0 }

/-- `MEstimatorSupportMeasurer::IsLeftBetter` (lines 122-125). -/
def IsLeftBetter [LinearOrderedField α] (left right : Support α) : Bool :=
  decide (left.score < right.score)

end MEstimatorSupportMeasurer

/-! ## Specification-side helpers -/

/-- The positions of `residuals` that pass the inlier test `residuals[i] ≤ max_residual`. -/
def inlierPositions [LinearOrderedField α] (residuals : List α) (max_residual : α) :
    Finset Nat :=
  (Finset.range residuals.length).filter (fun i => residuals.getD i 0 ≤ max_residual)

/-! ## InlierSupportMeasurer: lemmas -/

namespace InlierSupportMeasurer

theorem inlier_foldl_EvaluateStep [LinearOrderedField α] (max_residual : α) (residuals : List α)
    (s : Support α) :
    residuals.foldl (EvaluateStep max_residual) s =
      { num_inliers := s.num_inliers + (residuals.filter (fun r => r ≤ max_residual)).length
        residual_sum := s.residual_sum + (residuals.filter (fun r => r ≤ max_residual)).sum } := by
  induction residuals generalizing s with
  | nil => simp
  | cons r rs ih =>
    rw [List.foldl_cons, ih]
    by_cases h : r ≤ max_residual
    · simp [EvaluateStep, h, add_assoc, Nat.add_comm 1]
    · simp [EvaluateStep, h]

end InlierSupportMeasurer

/-! ## UniqueInlierSupportMeasurer: lemmas -/

namespace UniqueInlierSupportMeasurer

/-- The loop invariant of `Evaluate`: after the first `n` indices, the counter holds the
number of inlier positions below `n`, the running sum their residuals, and the set the
identifiers found at those positions. -/
theorem foldl_EvaluateStep_range [LinearOrderedField α] (ids : List Nat) (residuals : List α)
    (max_residual : α) (n : Nat) :
    (List.range n).foldl (EvaluateStep ids residuals max_residual)
        { support := { num_inliers := 0, num_unique_inliers := 0, residual_sum := 0 }
          inlier_point_ids := ∅ }
      = { support :=
            { num_inliers :=
                ((Finset.range n).filter (fun i => residuals.getD i 0 ≤ max_residual)).card
              num_unique_inliers := 0
              residual_sum :=
                ∑ i in (Finset.range n).filter (fun i => residuals.getD i 0 ≤ max_residual),
                  residuals.getD i 0 }
          inlier_point_ids :=
            ((Finset.range n).filter (fun i => residuals.getD i 0 ≤ max_residual)).image
              (fun i => ids.getD i 0) } := by
  induction n with
  | zero => simp
  | succ n ih =>
    rw [List.range_succ, List.foldl_append, ih, Finset.range_succ]
    by_cases h : residuals.getD n 0 ≤ max_residual
    · have hn : n ∉ (Finset.range n).filter (fun i => residuals.getD i 0 ≤ max_residual) := by
        simp
      simp only [List.foldl_cons, List.foldl_nil, EvaluateStep, h, if_true,
        Finset.filter_insert, Finset.card_insert_of_not_mem hn, Finset.sum_insert hn,
        Finset.image_insert]
      rw [add_comm (residuals.getD n 0)]
    · simp only [List.foldl_cons, List.foldl_nil, EvaluateStep, h, if_false,
        Finset.filter_insert]

theorem Evaluate_eq_ok [LinearOrderedField α] (self : UniqueInlierSupportMeasurer)
    (residuals : List α) (max_residual : α)
    (hlen : residuals.length = self.unique_sample_ids_.length) :
    self.Evaluate residuals max_residual = Except.ok
      { num_inliers := (inlierPositions residuals max_residual).card
        num_unique_inliers :=
          ((inlierPositions residuals max_residual).image
            (fun i => self.unique_sample_ids_.getD i 0)).card
        residual_sum := ∑ i in inlierPositions residuals max_residual, residuals.getD i 0 } := by
  simp [Evaluate, THROW_CHECK_EQ, hlen, EvaluateLoop, foldl_EvaluateStep_range,
    inlierPositions]

theorem Evaluate_eq_error [LinearOrderedField α] (self : UniqueInlierSupportMeasurer)
    (residuals : List α) (max_residual : α)
    (hlen : residuals.length ≠ self.unique_sample_ids_.length) :
    self.Evaluate residuals max_residual = Except.error
      (CheckError.check_eq_failed residuals.length self.unique_sample_ids_.length) := by
  simp [Evaluate, THROW_CHECK_EQ, hlen]

end UniqueInlierSupportMeasurer

/-! ## MEstimatorSupportMeasurer: lemmas -/

namespace MEstimatorSupportMeasurer

theorem mestimator_foldl_EvaluateStep [LinearOrderedField α] (max_residual : α) (residuals : List α)
    (s : Support α) :
    residuals.foldl (EvaluateStep max_residual) s =
      { num_inliers := s.num_inliers + (residuals.filter (fun r => r ≤ max_residual)).length
        score := s.score
          + (residuals.map (fun r => if r ≤ max_residual then r else max_residual)).sum } := by
  induction residuals generalizing s with
  | nil => simp
  | cons r rs ih =>
    rw [List.foldl_cons, ih]
    by_cases h : r ≤ max_residual
    · simp [EvaluateStep, h, add_assoc, Nat.add_comm 1]
    · simp [EvaluateStep, h, add_assoc]

theorem score_eq [LinearOrderedField α] (residuals : List α) (max_residual : α) :
    (Evaluate residuals max_residual).score
      = (residuals.map (fun r => if r ≤ max_residual then r else max_residual)).sum := by
  simp [Evaluate, mestimator_foldl_EvaluateStep]

end MEstimatorSupportMeasurer

/-! ## Comparison lemmas -/

theorem InlierSupportMeasurer.inlier_isLeftBetter_iff [LinearOrderedField α] (a b : Support α) :
    IsLeftBetter a b = true ↔
      b.num_inliers < a.num_inliers
        ∨ (a.num_inliers = b.num_inliers ∧ a.residual_sum < b.residual_sum) := by
  unfold IsLeftBetter
  by_cases h : a.num_inliers > b.num_inliers
  · simp [h]
  · have h' : ¬ b.num_inliers < a.num_inliers := h
    simp [h, h']

theorem InlierSupportMeasurer.inlier_isLeftBetter_eq_false_iff [LinearOrderedField α]
    (a b : Support α) :
    IsLeftBetter a b = false ↔
      a.num_inliers < b.num_inliers
        ∨ (a.num_inliers = b.num_inliers ∧ b.residual_sum ≤ a.residual_sum) := by
  rw [← Bool.not_eq_true, inlier_isLeftBetter_iff]
  constructor
  · intro h
    rcases Nat.lt_trichotomy a.num_inliers b.num_inliers with h1 | h1 | h1
    · exact Or.inl h1
    · exact Or.inr ⟨h1, not_lt.mp (fun h2 => h (Or.inr ⟨h1, h2⟩))⟩
    · exact absurd (Or.inl h1) h
  · rintro (h | ⟨h1, h2⟩) (h3 | ⟨h3, h4⟩)
    · omega
    · omega
    · omega
    · exact absurd h4 (not_lt.mpr h2)

theorem UniqueInlierSupportMeasurer.unique_isLeftBetter_iff [LinearOrderedField α] (a b : Support α) :
    IsLeftBetter a b = true ↔
      b.num_unique_inliers < a.num_unique_inliers
        ∨ (a.num_unique_inliers = b.num_unique_inliers ∧ b.num_inliers < a.num_inliers)
        ∨ (a.num_unique_inliers = b.num_unique_inliers ∧ a.num_inliers = b.num_inliers
            ∧ a.residual_sum < b.residual_sum) := by
  unfold IsLeftBetter
  by_cases h : a.num_unique_inliers > b.num_unique_inliers
  · simp [h]
  · have h' : ¬ b.num_unique_inliers < a.num_unique_inliers := h
    by_cases hu : a.num_unique_inliers = b.num_unique_inliers
    · by_cases hn : a.num_inliers > b.num_inliers
      · simp [hu, hn]
      · have hn' : ¬ b.num_inliers < a.num_inliers := hn
        simp [hu, hn, hn']
    · simp [h, h', hu]

theorem MEstimatorSupportMeasurer.mestimator_isLeftBetter_iff [LinearOrderedField α] (a b : Support α) :
    IsLeftBetter a b = true ↔ a.score < b.score := by
  simp [IsLeftBetter]

/-! ## Monotonicity lemmas -/

/-- The contribution of one residual to the M-estimator score is monotone in the residual. -/
theorem MEstimatorSupportMeasurer.contribution_mono [LinearOrderedField α] (max_residual : α)
    {r r' : α} (h : r ≤ r') :
    (if r ≤ max_residual then r else max_residual)
      ≤ (if r' ≤ max_residual then r' else max_residual) := by
  split_ifs with h1 h2 h2
  · exact h
  · exact h1
  · exact absurd (le_trans h h2) h1
  · exact le_refl _

theorem MEstimatorSupportMeasurer.sum_contribution_set_le [LinearOrderedField α]
    (max_residual : α) (residuals : List α) (i : Nat) (r' : α)
    (hi : i < residuals.length) (h : residuals[i] ≤ r') :
    (residuals.map (fun r => if r ≤ max_residual then r else max_residual)).sum
      ≤ ((residuals.set i r').map (fun r => if r ≤ max_residual then r else max_residual)).sum := by
  induction residuals generalizing i with
  | nil => simp at hi
  | cons x xs ih =>
    cases i with
    | zero =>
      simp only [List.set_cons_zero, List.map_cons, List.sum_cons]
      exact add_le_add_right (contribution_mono max_residual (by simpa using h)) _
    | succ k =>
      simp only [List.set_cons_succ, List.map_cons, List.sum_cons]
      have hk : k < xs.length := by simpa using hi
      exact add_le_add_left (ih k hk (by simpa using h)) _

/-! ## Positions and filtered lists -/

/-- A sum over the index range of a list is the sum of the mapped list. -/
theorem sum_range_getD {β : Type} [AddCommMonoid β] (f : α → β) (d : α) (l : List α) :
    ∑ i in Finset.range l.length, f (l.getD i d) = (l.map f).sum := by
  induction l using List.reverseRecOn with
  | nil => simp
  | append_singleton l x ih =>
    rw [List.length_append, List.length_singleton, Finset.sum_range_succ, List.map_append,
      List.sum_append, ← ih]
    congr 1
    · refine Finset.sum_congr rfl (fun i hi => ?_)
      rw [List.getD_append _ _ _ _ (Finset.mem_range.mp hi)]
    · simp [List.getD_eq_getElem?_getD]

theorem length_filter_eq_sum_map (p : α → Prop) [DecidablePred p] (l : List α) :
    (l.filter (fun r => decide (p r))).length = (l.map (fun r => if p r then 1 else 0)).sum := by
  induction l with
  | nil => simp
  | cons x xs ih =>
    by_cases h : p x
    · simp [h, ih, Nat.add_comm]
    · simp [h, ih]

theorem sum_filter_eq_sum_map [LinearOrderedField α] (p : α → Prop) [DecidablePred p]
    (l : List α) :
    (l.filter (fun r => decide (p r))).sum = (l.map (fun r => if p r then r else 0)).sum := by
  induction l with
  | nil => simp
  | cons x xs ih =>
    by_cases h : p x
    · simp [h, ih]
    · simp [h, ih]

theorem card_inlierPositions [LinearOrderedField α] (residuals : List α) (max_residual : α) :
    (inlierPositions residuals max_residual).card
      = (residuals.filter (fun r => r ≤ max_residual)).length := by
  rw [inlierPositions, Finset.card_filter, length_filter_eq_sum_map (fun r => r ≤ max_residual)]
  exact sum_range_getD (fun r => if r ≤ max_residual then 1 else 0) 0 residuals

theorem sum_inlierPositions [LinearOrderedField α] (residuals : List α) (max_residual : α) :
    ∑ i in inlierPositions residuals max_residual, residuals.getD i 0
      = (residuals.filter (fun r => r ≤ max_residual)).sum := by
  rw [inlierPositions, Finset.sum_filter, sum_filter_eq_sum_map (fun r => r ≤ max_residual)]
  exact sum_range_getD (fun r => if r ≤ max_residual then r else 0) 0 residuals

theorem InlierSupportMeasurer.inlier_Evaluate_eq [LinearOrderedField α] (residuals : List α)
    (max_residual : α) :
    Evaluate residuals max_residual =
      { num_inliers := (residuals.filter (fun r => r ≤ max_residual)).length
        residual_sum := (residuals.filter (fun r => r ≤ max_residual)).sum } := by
  simp [Evaluate, inlier_foldl_EvaluateStep]

theorem MEstimatorSupportMeasurer.mestimator_Evaluate_eq [LinearOrderedField α]
    (residuals : List α) (max_residual : α) :
    Evaluate residuals max_residual =
      { num_inliers := (residuals.filter (fun r => r ≤ max_residual)).length
        score := (residuals.map (fun r => if r ≤ max_residual then r else max_residual)).sum } := by
  simp [Evaluate, mestimator_foldl_EvaluateStep]

theorem UniqueInlierSupportMeasurer.unique_Evaluate_eq [LinearOrderedField α]
    (self : UniqueInlierSupportMeasurer) (residuals : List α) (max_residual : α)
    (hlen : residuals.length = self.unique_sample_ids_.length) :
    self.Evaluate residuals max_residual = Except.ok
      { num_inliers := (residuals.filter (fun r => r ≤ max_residual)).length
        num_unique_inliers :=
          ((inlierPositions residuals max_residual).image
            (fun i => self.unique_sample_ids_.getD i 0)).card
        residual_sum := (residuals.filter (fun r => r ≤ max_residual)).sum } := by
  rw [Evaluate_eq_ok self residuals max_residual hlen, card_inlierPositions,
    sum_inlierPositions]

/-! ## All-outlier vectors -/

theorem filter_le_eq_nil_of_all_gt [LinearOrderedField α] (residuals : List α)
    (max_residual : α) (hout : ∀ r ∈ residuals, max_residual < r) :
    residuals.filter (fun r => r ≤ max_residual) = [] := by
  rw [List.filter_eq_nil_iff]
  intro r hr
  simpa using hout r hr

theorem inlierPositions_eq_empty_of_all_gt [LinearOrderedField α] (residuals : List α)
    (max_residual : α) (hout : ∀ r ∈ residuals, max_residual < r) :
    inlierPositions residuals max_residual = ∅ := by
  rw [← Finset.card_eq_zero, card_inlierPositions,
    filter_le_eq_nil_of_all_gt residuals max_residual hout, List.length_nil]

/-- On an all-outlier vector every iteration of the M-estimator loop takes the else branch:
the counter is untouched and the threshold is added to the score once per residual. -/
theorem MEstimatorSupportMeasurer.foldl_EvaluateStep_of_all_gt [LinearOrderedField α]
    (residuals : List α) (max_residual : α) (hout : ∀ r ∈ residuals, max_residual < r)
    (s : Support α) :
    residuals.foldl (EvaluateStep max_residual) s =
      { num_inliers := s.num_inliers
        score := residuals.foldl (fun score _ => score + max_residual) s.score } := by
  induction residuals generalizing s with
  | nil => rfl
  | cons x xs ih =>
    have hx : ¬ x ≤ max_residual := not_le.mpr (hout x (List.mem_cons_self x xs))
    have hxs : ∀ r ∈ xs, max_residual < r := fun r hr => hout r (List.mem_cons_of_mem x hr)
    rw [List.foldl_cons, List.foldl_cons, ih hxs]
    simp [EvaluateStep, hx]

/-! ## Non-negative residuals -/

theorem filter_le_zero_eq_of_nonneg [LinearOrderedField α] (residuals : List α)
    (hnn : ∀ r ∈ residuals, 0 ≤ r) :
    residuals.filter (fun r => r ≤ 0) = residuals.filter (fun r => r = 0) := by
  refine List.filter_congr (fun r hr => ?_)
  by_cases h : r = 0
  · simp [h]
  · have h2 : ¬ r ≤ 0 := fun hle => h (le_antisymm hle (hnn r hr))
    simp [h, h2]

theorem sum_filter_eq_zero [LinearOrderedField α] (residuals : List α) :
    (residuals.filter (fun r => r = 0)).sum = 0 := by
  refine List.sum_eq_zero (fun r hr => ?_)
  simpa using (List.mem_filter.mp hr).2

theorem getD_nonneg_of_nonneg [LinearOrderedField α] (residuals : List α)
    (hnn : ∀ r ∈ residuals, 0 ≤ r) (i : Nat) : 0 ≤ residuals.getD i 0 := by
  by_cases hi : i < residuals.length
  · rw [List.getD_eq_getElem _ _ hi]
    exact hnn _ (List.getElem_mem hi)
  · rw [List.getD_eq_default _ _ (not_lt.mp hi)]

theorem inlierPositions_zero_eq_of_nonneg [LinearOrderedField α] (residuals : List α)
    (hnn : ∀ r ∈ residuals, 0 ≤ r) :
    inlierPositions residuals 0
      = (Finset.range residuals.length).filter (fun i => residuals.getD i 0 = 0) := by
  refine Finset.filter_congr (fun i _ => ?_)
  exact ⟨fun h => le_antisymm h (getD_nonneg_of_nonneg residuals hnn i), fun h => le_of_eq h⟩

theorem sum_contribution_zero_of_nonneg [LinearOrderedField α] (residuals : List α)
    (hnn : ∀ r ∈ residuals, 0 ≤ r) :
    (residuals.map (fun r => if r ≤ (0 : α) then r else 0)).sum = 0 := by
  refine List.sum_eq_zero (fun x hx => ?_)
  obtain ⟨r, hr, rfl⟩ := List.mem_map.mp hx
  split_ifs with h
  · exact le_antisymm h (hnn r hr)
  · rfl

theorem sum_contribution_nonneg [LinearOrderedField α] (residuals : List α) (max_residual : α)
    (hnn : ∀ r ∈ residuals, 0 ≤ r) (ht : 0 ≤ max_residual) :
    0 ≤ (residuals.map (fun r => if r ≤ max_residual then r else max_residual)).sum := by
  refine List.sum_nonneg (fun x hx => ?_)
  obtain ⟨r, hr, rfl⟩ := List.mem_map.mp hx
  split_ifs
  · exact hnn r hr
  · exact ht

/-! ## Score decomposition and threshold monotonicity -/

theorem sum_contribution_eq [LinearOrderedField α] (residuals : List α) (max_residual : α) :
    (residuals.map (fun r => if r ≤ max_residual then r else max_residual)).sum
      = (residuals.filter (fun r => r ≤ max_residual)).sum
        + ((residuals.length : α)
            - ((residuals.filter (fun r => r ≤ max_residual)).length : α)) * max_residual := by
  induction residuals with
  | nil => simp
  | cons x xs ih =>
    by_cases h : x ≤ max_residual
    · simp only [List.map_cons, List.sum_cons, if_pos h, ih, List.filter_cons,
        decide_eq_true_eq, List.length_cons, Nat.cast_add, Nat.cast_one]
      ring
    · simp only [List.map_cons, List.sum_cons, if_neg h, ih, List.filter_cons,
        decide_eq_true_eq, List.length_cons, Nat.cast_add, Nat.cast_one, if_false]
      ring

theorem sum_contribution_le [LinearOrderedField α] (residuals : List α) (max_residual : α) :
    (residuals.map (fun r => if r ≤ max_residual then r else max_residual)).sum
      ≤ (residuals.length : α) * max_residual := by
  induction residuals with
  | nil => simp
  | cons x xs ih =>
    have hx : (if x ≤ max_residual then x else max_residual) ≤ max_residual := by
      split_ifs with h
      · exact h
      · exact le_refl _
    simp only [List.map_cons, List.sum_cons, List.length_cons, Nat.cast_add, Nat.cast_one]
    linarith

theorem length_filter_le_mono [LinearOrderedField α] (residuals : List α) {t1 t2 : α}
    (h : t1 ≤ t2) :
    (residuals.filter (fun r => r ≤ t1)).length ≤ (residuals.filter (fun r => r ≤ t2)).length := by
  induction residuals with
  | nil => simp
  | cons x xs ih =>
    by_cases h1 : x ≤ t1
    · have h2 : x ≤ t2 := le_trans h1 h
      simpa [h1, h2] using ih
    · by_cases h2 : x ≤ t2
      · simpa [h1, h2] using Nat.le_succ_of_le ih
      · simpa [h1, h2] using ih

theorem sum_filter_le_mono [LinearOrderedField α] (residuals : List α) {t1 t2 : α}
    (h : t1 ≤ t2) (hnn : ∀ r ∈ residuals, 0 ≤ r) :
    (residuals.filter (fun r => r ≤ t1)).sum ≤ (residuals.filter (fun r => r ≤ t2)).sum := by
  induction residuals with
  | nil => simp
  | cons x xs ih =>
    have hx : 0 ≤ x := hnn x (List.mem_cons_self x xs)
    have ih2 := ih (fun r hr => hnn r (List.mem_cons_of_mem x hr))
    by_cases h1 : x ≤ t1
    · have h2 : x ≤ t2 := le_trans h1 h
      simpa [h1, h2] using ih2
    · by_cases h2 : x ≤ t2
      · simp only [List.filter_cons, decide_eq_true_eq, h1, h2, if_true, if_false,
          List.sum_cons]
        linarith
      · simpa [h1, h2] using ih2

theorem UniqueInlierSupportMeasurer.unique_isLeftBetter_eq_false_iff [LinearOrderedField α]
    (a b : Support α) :
    IsLeftBetter a b = false ↔
      a.num_unique_inliers < b.num_unique_inliers
        ∨ (a.num_unique_inliers = b.num_unique_inliers ∧ a.num_inliers < b.num_inliers)
        ∨ (a.num_unique_inliers = b.num_unique_inliers ∧ a.num_inliers = b.num_inliers
            ∧ b.residual_sum ≤ a.residual_sum) := by
  rw [← Bool.not_eq_true, unique_isLeftBetter_iff]
  constructor
  · intro h
    rcases Nat.lt_trichotomy a.num_unique_inliers b.num_unique_inliers with h1 | h1 | h1
    · exact Or.inl h1
    · rcases Nat.lt_trichotomy a.num_inliers b.num_inliers with h2 | h2 | h2
      · exact Or.inr (Or.inl ⟨h1, h2⟩)
      · exact Or.inr (Or.inr ⟨h1, h2, not_lt.mp (fun h3 => h (Or.inr (Or.inr ⟨h1, h2, h3⟩)))⟩)
      · exact absurd (Or.inr (Or.inl ⟨h1, h2⟩)) h
    · exact absurd (Or.inl h1) h
  · rintro (h | ⟨h1, h2⟩ | ⟨h1, h2, h3⟩) (h4 | ⟨h4, h5⟩ | ⟨h4, h5, h6⟩)
    all_goals first
      | omega
      | exact absurd h6 (not_lt.mpr h3)

/-! ## Claims -/

/-- C1: `InlierSupportMeasurer::Evaluate` returns, for every residual vector and every
threshold, the number of entries `r ≤ max_residual` as `num_inliers` and the sum of exactly
those entries as `residual_sum`; entries above the threshold contribute to neither field
(dropping them from the input leaves the result unchanged). On residuals
`[0.1, 0.5, 2.0, 0.3]` with threshold `0.5` the result is `num_inliers = 3`,
`residual_sum = 0.9`. -/
theorem InlierSupportMeasurer.Inlier_Evaluate_spec [LinearOrderedField α] (residuals : List α)
    (max_residual : α) :
    (Evaluate residuals max_residual).num_inliers
        = (residuals.filter (fun r => r ≤ max_residual)).length
      ∧ (Evaluate residuals max_residual).residual_sum
        = (residuals.filter (fun r => r ≤ max_residual)).sum
      ∧ Evaluate (residuals.filter (fun r => r ≤ max_residual)) max_residual
        = Evaluate residuals max_residual
      ∧ Evaluate ([1/10, 1/2, 2, 3/10] : List ℚ) (1/2)
        = { num_inliers := 3, residual_sum := 9/10 } := by
  refine ⟨?_, ?_, ?_, ?_⟩
  · simp [Evaluate, inlier_foldl_EvaluateStep]
  · simp [Evaluate, inlier_foldl_EvaluateStep]
  · simp [Evaluate, inlier_foldl_EvaluateStep, List.filter_filter]
  · simp only [Evaluate, inlier_foldl_EvaluateStep]
    norm_num [List.filter]

/-- C2: `UniqueInlierSupportMeasurer::Evaluate` throws (and produces no `Support`) if and
only if the residual vector and the stored identifier vector differ in length, and returns a
`Support` if and only if the two lengths agree, whatever the threshold. Residuals of length
3 against identifiers of length 2 fail for every threshold. -/
theorem UniqueInlierSupportMeasurer.Evaluate_fails_iff [LinearOrderedField α]
    (self : UniqueInlierSupportMeasurer) (residuals : List α) (max_residual : α) :
    ((∃ e, self.Evaluate residuals max_residual = Except.error e)
        ↔ residuals.length ≠ self.unique_sample_ids_.length)
      ∧ ((∃ s, self.Evaluate residuals max_residual = Except.ok s)
        ↔ residuals.length = self.unique_sample_ids_.length)
      ∧ (∀ t : ℚ, Evaluate { unique_sample_ids_ := [7, 9] } ([1/10, 1/5, 1/5] : List ℚ) t
          = Except.error (CheckError.check_eq_failed 3 2)) := by
  refine ⟨?_, ?_, ?_⟩
  · by_cases h : residuals.length = self.unique_sample_ids_.length
    · simp [Evaluate_eq_ok self residuals max_residual h, h]
    · simp [Evaluate_eq_error self residuals max_residual h, h]
  · by_cases h : residuals.length = self.unique_sample_ids_.length
    · simp [Evaluate_eq_ok self residuals max_residual h, h]
    · simp [Evaluate_eq_error self residuals max_residual h, h]
  · intro t
    simp [Evaluate, THROW_CHECK_EQ]

/-- C3: for an identifier vector and a residual vector of the same length,
`UniqueInlierSupportMeasurer::Evaluate` returns a support whose `num_inliers` is the number
of positions `i` with `residuals[i] ≤ max_residual`, whose `residual_sum` is the sum of the
residuals at those positions, and whose `num_unique_inliers` is the cardinality of the set
of identifiers `ids[i]` found at those positions. Residuals `[0.1, 0.2, 0.2]` with
identifiers `[A, A, B]` and threshold `0.5` give `3`, `2` and `0.5`. -/
theorem UniqueInlierSupportMeasurer.Unique_Evaluate_spec [LinearOrderedField α]
    (self : UniqueInlierSupportMeasurer) (residuals : List α) (max_residual : α)
    (hlen : residuals.length = self.unique_sample_ids_.length) :
    (∃ s, self.Evaluate residuals max_residual = Except.ok s
        ∧ s.num_inliers = (inlierPositions residuals max_residual).card
        ∧ s.residual_sum = ∑ i in inlierPositions residuals max_residual, residuals.getD i 0
        ∧ s.num_unique_inliers
          = ((inlierPositions residuals max_residual).image
              (fun i => self.unique_sample_ids_.getD i 0)).card)
      ∧ Evaluate { unique_sample_ids_ := [7, 7, 9] } ([1/10, 1/5, 1/5] : List ℚ) (1/2)
          = Except.ok { num_inliers := 3, num_unique_inliers := 2, residual_sum := 1/2 } := by
  refine ⟨⟨_, Evaluate_eq_ok self residuals max_residual hlen, rfl, rfl, rfl⟩, ?_⟩
  simp only [Evaluate, THROW_CHECK_EQ, EvaluateLoop, List.length_cons, List.length_nil,
    List.range_succ, List.range_zero]
  norm_num [EvaluateStep]

/-- Witness for C3: the theorem applied to identifiers `[7, 7, 9]`, residuals
`[1/10, 1/5, 1/5]` and threshold `1/2`, whose lengths agree. -/
theorem UniqueInlierSupportMeasurer.Unique_Evaluate_spec_witness :
    ([1/10, 1/5, 1/5] : List ℚ).length
        = (UniqueInlierSupportMeasurer.mk [7, 7, 9]).unique_sample_ids_.length
      ∧ ((∃ s, Evaluate { unique_sample_ids_ := [7, 7, 9] } ([1/10, 1/5, 1/5] : List ℚ) (1/2)
            = Except.ok s
          ∧ s.num_inliers = (inlierPositions ([1/10, 1/5, 1/5] : List ℚ) (1/2)).card
          ∧ s.residual_sum = ∑ i in inlierPositions ([1/10, 1/5, 1/5] : List ℚ) (1/2),
              ([1/10, 1/5, 1/5] : List ℚ).getD i 0
          ∧ s.num_unique_inliers
            = ((inlierPositions ([1/10, 1/5, 1/5] : List ℚ) (1/2)).image
                (fun i => (UniqueInlierSupportMeasurer.mk [7, 7, 9]).unique_sample_ids_.getD
                  i 0)).card)
        ∧ Evaluate { unique_sample_ids_ := [7, 7, 9] } ([1/10, 1/5, 1/5] : List ℚ) (1/2)
            = Except.ok { num_inliers := 3, num_unique_inliers := 2, residual_sum := 1/2 }) :=
  ⟨rfl, UniqueInlierSupportMeasurer.Unique_Evaluate_spec ⟨[7, 7, 9]⟩ [1/10, 1/5, 1/5] (1/2) rfl⟩

/-- C4: `MEstimatorSupportMeasurer::Evaluate` returns, for every residual vector and every
threshold, a score equal to the sum over all entries `r` of `r` if `r ≤ max_residual` and of
`max_residual` otherwise: appending an entry above the threshold adds exactly the threshold
to the score, appending an entry at or below it adds the entry itself. Residuals
`[0.1, 10.0]` with threshold `1.0` give score `1.1`. -/
theorem MEstimatorSupportMeasurer.Evaluate_score_spec [LinearOrderedField α]
    (residuals : List α) (max_residual : α) (r : α) :
    (Evaluate residuals max_residual).score
        = (residuals.map (fun r => if r ≤ max_residual then r else max_residual)).sum
      ∧ (Evaluate (residuals ++ [r]) max_residual).score
        = (Evaluate residuals max_residual).score + (if r ≤ max_residual then r else max_residual)
      ∧ (Evaluate ([1/10, 10] : List ℚ) 1).score = 11/10 := by
  refine ⟨score_eq residuals max_residual, ?_, ?_⟩
  · simp [score_eq]
  · rw [score_eq]
    norm_num

/-- C5: `InlierSupportMeasurer::IsLeftBetter(a, b)` is true if and only if
`a.num_inliers > b.num_inliers`, or `a.num_inliers = b.num_inliers` and
`a.residual_sum < b.residual_sum`; in every other case it is false. -/
theorem InlierSupportMeasurer.Inlier_IsLeftBetter_spec [LinearOrderedField α] (a b : Support α) :
    (IsLeftBetter a b = true ↔
        a.num_inliers > b.num_inliers
          ∨ (a.num_inliers = b.num_inliers ∧ a.residual_sum < b.residual_sum))
      ∧ (IsLeftBetter a b = false ↔
        ¬ (a.num_inliers > b.num_inliers
          ∨ (a.num_inliers = b.num_inliers ∧ a.residual_sum < b.residual_sum))) := by
  have h := inlier_isLeftBetter_iff a b
  refine ⟨h, ?_⟩
  rw [← h, Bool.not_eq_true]

/-- C6: `UniqueInlierSupportMeasurer::IsLeftBetter(a, b)` is the strict lexicographic
comparison by `num_unique_inliers` (higher wins), then `num_inliers` (higher wins), then
`residual_sum` (lower wins); a support with fewer distinct inliers is never better, whatever
its `num_inliers` and `residual_sum`. -/
theorem UniqueInlierSupportMeasurer.Unique_IsLeftBetter_spec [LinearOrderedField α]
    (a b : Support α) :
    (IsLeftBetter a b = true ↔
        a.num_unique_inliers > b.num_unique_inliers
          ∨ (a.num_unique_inliers = b.num_unique_inliers ∧ a.num_inliers > b.num_inliers)
          ∨ (a.num_unique_inliers = b.num_unique_inliers ∧ a.num_inliers = b.num_inliers
              ∧ a.residual_sum < b.residual_sum))
      ∧ (a.num_unique_inliers < b.num_unique_inliers → IsLeftBetter a b = false) := by
  have h := unique_isLeftBetter_iff a b
  refine ⟨h, fun hlt => ?_⟩
  rw [← Bool.not_eq_true, h]
  rintro (h1 | ⟨h1, _⟩ | ⟨h1, _⟩) <;> omega

/-- Witness for C6: a support with 1 distinct inlier against one with 2 distinct inliers,
although it has more inliers and a smaller residual sum. -/
theorem UniqueInlierSupportMeasurer.Unique_IsLeftBetter_spec_witness :
    (IsLeftBetter ({ num_inliers := 5, num_unique_inliers := 1, residual_sum := 0 } : Support ℚ)
          { num_inliers := 2, num_unique_inliers := 2, residual_sum := 1 } = true ↔
        1 > 2 ∨ (1 = 2 ∧ 5 > 2) ∨ (1 = 2 ∧ 5 = 2 ∧ (0 : ℚ) < 1))
      ∧ (1 < 2 →
        IsLeftBetter ({ num_inliers := 5, num_unique_inliers := 1, residual_sum := 0 } : Support ℚ)
          { num_inliers := 2, num_unique_inliers := 2, residual_sum := 1 } = false) :=
  UniqueInlierSupportMeasurer.Unique_IsLeftBetter_spec
    ({ num_inliers := 5, num_unique_inliers := 1, residual_sum := 0 } : Support ℚ)
    { num_inliers := 2, num_unique_inliers := 2, residual_sum := 1 }

/-- C7: `MEstimatorSupportMeasurer::IsLeftBetter(a, b)` is true if and only if
`a.score < b.score`; the result does not depend on the `num_inliers` field of either
support, and equal scores give false in both directions. -/
theorem MEstimatorSupportMeasurer.MEstimator_IsLeftBetter_spec [LinearOrderedField α]
    (a b : Support α) (n m : Nat) :
    (IsLeftBetter a b = true ↔ a.score < b.score)
      ∧ IsLeftBetter { num_inliers := n, score := a.score } { num_inliers := m, score := b.score }
          = IsLeftBetter a b
      ∧ (a.score = b.score → IsLeftBetter a b = false ∧ IsLeftBetter b a = false) := by
  refine ⟨mestimator_isLeftBetter_iff a b, rfl, fun h => ?_⟩
  simp [IsLeftBetter, h]

/-- Witness for C7: two supports of equal score `3/2` and inlier counts 4 and 1. -/
theorem MEstimatorSupportMeasurer.MEstimator_IsLeftBetter_spec_witness :
    (IsLeftBetter ({ num_inliers := 4, score := 3/2 } : Support ℚ)
          { num_inliers := 1, score := 3/2 } = true ↔ (3/2 : ℚ) < 3/2)
      ∧ IsLeftBetter ({ num_inliers := 0, score := 3/2 } : Support ℚ)
            { num_inliers := 9, score := 3/2 }
          = IsLeftBetter ({ num_inliers := 4, score := 3/2 } : Support ℚ)
            { num_inliers := 1, score := 3/2 }
      ∧ ((3/2 : ℚ) = 3/2 →
        IsLeftBetter ({ num_inliers := 4, score := 3/2 } : Support ℚ)
            { num_inliers := 1, score := 3/2 } = false
          ∧ IsLeftBetter ({ num_inliers := 1, score := 3/2 } : Support ℚ)
            { num_inliers := 4, score := 3/2 } = false) :=
  MEstimatorSupportMeasurer.MEstimator_IsLeftBetter_spec
    ({ num_inliers := 4, score := 3/2 } : Support ℚ) { num_inliers := 1, score := 3/2 } 0 9

/-- C8: for an identifier vector and a residual vector of the same length and every
threshold, the support returned by `UniqueInlierSupportMeasurer::Evaluate` satisfies
`num_unique_inliers ≤ num_inliers`, with equality if and only if the identifiers at the
inlier positions (positions `i` with `residuals[i] ≤ max_residual`) are pairwise
distinct. -/
theorem UniqueInlierSupportMeasurer.Evaluate_unique_le_inliers [LinearOrderedField α]
    (self : UniqueInlierSupportMeasurer) (residuals : List α) (max_residual : α)
    (hlen : residuals.length = self.unique_sample_ids_.length) :
    ∃ s, self.Evaluate residuals max_residual = Except.ok s
      ∧ s.num_unique_inliers ≤ s.num_inliers
      ∧ (s.num_unique_inliers = s.num_inliers ↔
          ∀ i j, i < residuals.length → j < residuals.length →
            residuals.getD i 0 ≤ max_residual → residuals.getD j 0 ≤ max_residual →
            self.unique_sample_ids_.getD i 0 = self.unique_sample_ids_.getD j 0 → i = j) := by
  refine ⟨_, Evaluate_eq_ok self residuals max_residual hlen, Finset.card_image_le, ?_⟩
  rw [Finset.card_image_iff]
  constructor
  · intro hinj i j hi hj hri hrj hid
    have hmi : i ∈ inlierPositions residuals max_residual :=
      Finset.mem_filter.mpr ⟨Finset.mem_range.mpr hi, hri⟩
    have hmj : j ∈ inlierPositions residuals max_residual :=
      Finset.mem_filter.mpr ⟨Finset.mem_range.mpr hj, hrj⟩
    exact hinj hmi hmj hid
  · intro hall i hi j hj hid
    simp only [inlierPositions, Finset.coe_filter, Finset.mem_range, Set.mem_setOf_eq] at hi hj
    exact hall i j hi.1 hj.1 hi.2 hj.2 hid

/-- Witness for C8: identifiers `[7, 7, 9]`, residuals `[1/10, 1/5, 1/5]`, threshold `1/2`
(equal lengths; the identifier 7 occurs at two inlier positions). -/
theorem UniqueInlierSupportMeasurer.Evaluate_unique_le_inliers_witness :
    ([1/10, 1/5, 1/5] : List ℚ).length
        = (UniqueInlierSupportMeasurer.mk [7, 7, 9]).unique_sample_ids_.length
      ∧ ∃ s, Evaluate { unique_sample_ids_ := [7, 7, 9] } ([1/10, 1/5, 1/5] : List ℚ) (1/2)
          = Except.ok s
        ∧ s.num_unique_inliers ≤ s.num_inliers
        ∧ (s.num_unique_inliers = s.num_inliers ↔
            ∀ i j, i < ([1/10, 1/5, 1/5] : List ℚ).length →
              j < ([1/10, 1/5, 1/5] : List ℚ).length →
              ([1/10, 1/5, 1/5] : List ℚ).getD i 0 ≤ 1/2 →
              ([1/10, 1/5, 1/5] : List ℚ).getD j 0 ≤ 1/2 →
              (UniqueInlierSupportMeasurer.mk [7, 7, 9]).unique_sample_ids_.getD i 0
                = (UniqueInlierSupportMeasurer.mk [7, 7, 9]).unique_sample_ids_.getD j 0 →
              i = j) :=
  ⟨rfl,
    UniqueInlierSupportMeasurer.Evaluate_unique_le_inliers ⟨[7, 7, 9]⟩ [1/10, 1/5, 1/5] (1/2)
      rfl⟩

/-- C9: the M-estimator score is monotonically non-decreasing in each single residual:
for every threshold, every residual vector and every position `i`, replacing
`residuals[i]` by a value `r' ≥ residuals[i]` gives a score from
`MEstimatorSupportMeasurer::Evaluate` that is at least the original score. -/
theorem MEstimatorSupportMeasurer.Evaluate_score_mono [LinearOrderedField α]
    (residuals : List α) (max_residual : α) (i : Nat) (r' : α)
    (hi : i < residuals.length) (h : residuals[i] ≤ r') :
    (Evaluate residuals max_residual).score
      ≤ (Evaluate (residuals.set i r') max_residual).score := by
  rw [score_eq, score_eq]
  exact sum_contribution_set_le max_residual residuals i r' hi h

/-- Witness for C9: residuals `[1/2, 3]` with threshold `1`, raising the entry at
position 0 from `1/2` to `2`. -/
theorem MEstimatorSupportMeasurer.Evaluate_score_mono_witness :
    (0 < ([1/2, 3] : List ℚ).length ∧ ([1/2, 3] : List ℚ)[0] ≤ 2)
      ∧ (Evaluate ([1/2, 3] : List ℚ) 1).score
        ≤ (Evaluate (([1/2, 3] : List ℚ).set 0 2) 1).score :=
  ⟨⟨by decide, by norm_num⟩,
    MEstimatorSupportMeasurer.Evaluate_score_mono [1/2, 3] 1 0 2 (by decide) (by norm_num)⟩

/-- C10: `InlierSupportMeasurer::IsLeftBetter` defines a total preorder on supports: the
relation "a is at least as good as b", that is `IsLeftBetter(b, a)` is false, is reflexive,
transitive and total; `IsLeftBetter` itself is irreflexive, asymmetric and transitive,
"neither is better than the other" is transitive, and two supports of equal count and
equal sum return false both ways. -/
theorem InlierSupportMeasurer.IsLeftBetter_total_preorder [LinearOrderedField α]
    (a b c : Support α) :
    IsLeftBetter a a = false
      ∧ (IsLeftBetter b a = false → IsLeftBetter c b = false → IsLeftBetter c a = false)
      ∧ (IsLeftBetter b a = false ∨ IsLeftBetter a b = false)
      ∧ (IsLeftBetter a b = true → IsLeftBetter b a = false)
      ∧ (IsLeftBetter a b = true → IsLeftBetter b c = true → IsLeftBetter a c = true)
      ∧ (IsLeftBetter a b = false ∧ IsLeftBetter b a = false →
          IsLeftBetter b c = false ∧ IsLeftBetter c b = false →
          IsLeftBetter a c = false ∧ IsLeftBetter c a = false)
      ∧ (a.num_inliers = b.num_inliers ∧ a.residual_sum = b.residual_sum →
          IsLeftBetter a b = false ∧ IsLeftBetter b a = false) := by
  have trans_ge : ∀ x y z : Support α,
      IsLeftBetter y x = false → IsLeftBetter z y = false → IsLeftBetter z x = false := by
    intro x y z
    simp only [inlier_isLeftBetter_eq_false_iff]
    rintro (h1 | ⟨h1, h2⟩) (h3 | ⟨h3, h4⟩)
    · exact Or.inl (by omega)
    · exact Or.inl (by omega)
    · exact Or.inl (by omega)
    · exact Or.inr ⟨by omega, le_trans h2 h4⟩
  refine ⟨?_, trans_ge a b c, ?_, ?_, ?_, ?_, ?_⟩
  · simp [inlier_isLeftBetter_eq_false_iff]
  · simp only [inlier_isLeftBetter_eq_false_iff]
    rcases Nat.lt_trichotomy a.num_inliers b.num_inliers with h | h | h
    · exact Or.inr (Or.inl h)
    · rcases le_total a.residual_sum b.residual_sum with h2 | h2
      · exact Or.inl (Or.inr ⟨h.symm, h2⟩)
      · exact Or.inr (Or.inr ⟨h, h2⟩)
    · exact Or.inl (Or.inl h)
  · simp only [inlier_isLeftBetter_iff, inlier_isLeftBetter_eq_false_iff]
    rintro (h | ⟨h1, h2⟩)
    · exact Or.inl h
    · exact Or.inr ⟨h1.symm, le_of_lt h2⟩
  · simp only [inlier_isLeftBetter_iff]
    rintro (h1 | ⟨h1, h2⟩) (h3 | ⟨h3, h4⟩)
    · exact Or.inl (by omega)
    · exact Or.inl (by omega)
    · exact Or.inl (by omega)
    · exact Or.inr ⟨by omega, lt_trans h2 h4⟩
  · rintro ⟨hab, hba⟩ ⟨hbc, hcb⟩
    exact ⟨trans_ge c b a hbc hab, trans_ge a b c hba hcb⟩
  · rintro ⟨h1, h2⟩
    simp [inlier_isLeftBetter_eq_false_iff, h1, h2]

/-- Witness for C10: the chain `⟨3, 1/2⟩`, `⟨3, 1⟩`, `⟨2, 0⟩` (each better than the next)
for asymmetry and transitivity, and the tie of `⟨3, 1/2⟩` with itself. -/
theorem InlierSupportMeasurer.IsLeftBetter_total_preorder_witness :
    (IsLeftBetter ({ num_inliers := 3, residual_sum := 1/2 } : Support ℚ)
          { num_inliers := 3, residual_sum := 1 } = true
        ∧ IsLeftBetter ({ num_inliers := 3, residual_sum := 1 } : Support ℚ)
          { num_inliers := 2, residual_sum := 0 } = true)
      ∧ (IsLeftBetter ({ num_inliers := 3, residual_sum := 1 } : Support ℚ)
          { num_inliers := 3, residual_sum := 1/2 } = false
        ∧ IsLeftBetter ({ num_inliers := 3, residual_sum := 1/2 } : Support ℚ)
          { num_inliers := 2, residual_sum := 0 } = true)
      ∧ (IsLeftBetter ({ num_inliers := 3, residual_sum := 1/2 } : Support ℚ)
          { num_inliers := 3, residual_sum := 1/2 } = false) := by
  have hab : IsLeftBetter ({ num_inliers := 3, residual_sum := 1/2 } : Support ℚ)
      { num_inliers := 3, residual_sum := 1 } = true := by norm_num [IsLeftBetter]
  have hbc : IsLeftBetter ({ num_inliers := 3, residual_sum := 1 } : Support ℚ)
      { num_inliers := 2, residual_sum := 0 } = true := by simp [IsLeftBetter]
  have h := InlierSupportMeasurer.IsLeftBetter_total_preorder
    ({ num_inliers := 3, residual_sum := 1/2 } : Support ℚ)
    { num_inliers := 3, residual_sum := 1 } { num_inliers := 2, residual_sum := 0 }
  exact ⟨⟨hab, hbc⟩, ⟨h.2.2.2.1 hab, h.2.2.2.2.1 hab hbc⟩, h.1⟩

/-- C11: for each of the three strategies and all supports whose primary keys are
strictly different (`num_inliers` for Inlier, `num_unique_inliers` for Unique-Sample,
`score` for M-Estimator), `IsLeftBetter(a, b)` and `IsLeftBetter(b, a)` are opposite
booleans, and the true one is the call whose left argument has the higher count (Inlier,
Unique-Sample) or the lower score (M-Estimator), whatever the secondary fields. -/
theorem IsLeftBetter_swap_of_primary_ne [LinearOrderedField α]
    (a b : InlierSupportMeasurer.Support α) (c d : UniqueInlierSupportMeasurer.Support α)
    (e f : MEstimatorSupportMeasurer.Support α)
    (hab : a.num_inliers ≠ b.num_inliers)
    (hcd : c.num_unique_inliers ≠ d.num_unique_inliers)
    (hef : e.score ≠ f.score) :
    (InlierSupportMeasurer.IsLeftBetter a b = !InlierSupportMeasurer.IsLeftBetter b a
        ∧ (InlierSupportMeasurer.IsLeftBetter a b = true ↔ a.num_inliers > b.num_inliers))
      ∧ (UniqueInlierSupportMeasurer.IsLeftBetter c d
            = !UniqueInlierSupportMeasurer.IsLeftBetter d c
        ∧ (UniqueInlierSupportMeasurer.IsLeftBetter c d = true
            ↔ c.num_unique_inliers > d.num_unique_inliers))
      ∧ (MEstimatorSupportMeasurer.IsLeftBetter e f
            = !MEstimatorSupportMeasurer.IsLeftBetter f e
        ∧ (MEstimatorSupportMeasurer.IsLeftBetter e f = true ↔ e.score < f.score)) := by
  have key : ∀ x y : Bool, (x = true ↔ ¬ (y = true)) → x = !y := by
    intro x y h
    cases x <;> cases y <;> simp at h ⊢
  refine ⟨⟨key _ _ ?_, ?_⟩, ⟨key _ _ ?_, ?_⟩, ⟨key _ _ ?_, ?_⟩⟩
  · simp only [InlierSupportMeasurer.inlier_isLeftBetter_iff]
    constructor
    · rintro (h | ⟨h, _⟩) (h2 | ⟨h2, _⟩) <;> omega
    · intro h
      rcases Nat.lt_or_gt_of_ne hab with h1 | h1
      · exact absurd (Or.inl h1) h
      · exact Or.inl h1
  · simp only [InlierSupportMeasurer.inlier_isLeftBetter_iff]
    constructor
    · rintro (h | ⟨h, _⟩)
      · exact h
      · exact absurd h hab
    · exact fun h => Or.inl h
  · simp only [UniqueInlierSupportMeasurer.unique_isLeftBetter_iff]
    constructor
    · rintro (h | ⟨h, _⟩ | ⟨h, _⟩) (h2 | ⟨h2, _⟩ | ⟨h2, _⟩) <;> omega
    · intro h
      rcases Nat.lt_or_gt_of_ne hcd with h1 | h1
      · exact absurd (Or.inl h1) h
      · exact Or.inl h1
  · simp only [UniqueInlierSupportMeasurer.unique_isLeftBetter_iff]
    constructor
    · rintro (h | ⟨h, _⟩ | ⟨h, _⟩)
      · exact h
      · exact absurd h hcd
      · exact absurd h hcd
    · exact fun h => Or.inl h
  · simp only [MEstimatorSupportMeasurer.mestimator_isLeftBetter_iff, not_lt]
    exact ⟨le_of_lt, fun h => lt_of_le_of_ne h hef⟩
  · exact MEstimatorSupportMeasurer.mestimator_isLeftBetter_iff e f

/-- Witness for C11: an Inlier pair with counts 3 and 2, a Unique-Sample pair with distinct
counts 1 and 2, an M-Estimator pair with scores 1 and 2; in each pair the secondary fields
favour the other side. -/
theorem IsLeftBetter_swap_of_primary_ne_witness :
    ((3 : Nat) ≠ 2 ∧ (1 : Nat) ≠ 2 ∧ (1 : ℚ) ≠ 2)
      ∧ (InlierSupportMeasurer.IsLeftBetter
            ({ num_inliers := 3, residual_sum := 5 } : InlierSupportMeasurer.Support ℚ)
            { num_inliers := 2, residual_sum := 0 }
          = !InlierSupportMeasurer.IsLeftBetter
            ({ num_inliers := 2, residual_sum := 0 } : InlierSupportMeasurer.Support ℚ)
            { num_inliers := 3, residual_sum := 5 }
        ∧ (InlierSupportMeasurer.IsLeftBetter
            ({ num_inliers := 3, residual_sum := 5 } : InlierSupportMeasurer.Support ℚ)
            { num_inliers := 2, residual_sum := 0 } = true ↔ 3 > 2))
      ∧ (UniqueInlierSupportMeasurer.IsLeftBetter
            ({ num_inliers := 9, num_unique_inliers := 1, residual_sum := 0 } :
              UniqueInlierSupportMeasurer.Support ℚ)
            { num_inliers := 2, num_unique_inliers := 2, residual_sum := 4 }
          = !UniqueInlierSupportMeasurer.IsLeftBetter
            ({ num_inliers := 2, num_unique_inliers := 2, residual_sum := 4 } :
              UniqueInlierSupportMeasurer.Support ℚ)
            { num_inliers := 9, num_unique_inliers := 1, residual_sum := 0 }
        ∧ (UniqueInlierSupportMeasurer.IsLeftBetter
            ({ num_inliers := 9, num_unique_inliers := 1, residual_sum := 0 } :
              UniqueInlierSupportMeasurer.Support ℚ)
            { num_inliers := 2, num_unique_inliers := 2, residual_sum := 4 } = true ↔ 1 > 2))
      ∧ (MEstimatorSupportMeasurer.IsLeftBetter
            ({ num_inliers := 0, score := 1 } : MEstimatorSupportMeasurer.Support ℚ)
            { num_inliers := 7, score := 2 }
          = !MEstimatorSupportMeasurer.IsLeftBetter
            ({ num_inliers := 7, score := 2 } : MEstimatorSupportMeasurer.Support ℚ)
            { num_inliers := 0, score := 1 }
        ∧ (MEstimatorSupportMeasurer.IsLeftBetter
            ({ num_inliers := 0, score := 1 } : MEstimatorSupportMeasurer.Support ℚ)
            { num_inliers := 7, score := 2 } = true ↔ (1 : ℚ) < 2)) :=
  ⟨⟨by decide, by decide, by norm_num⟩,
    IsLeftBetter_swap_of_primary_ne
      ({ num_inliers := 3, residual_sum := 5 } : InlierSupportMeasurer.Support ℚ)
      { num_inliers := 2, residual_sum := 0 }
      ({ num_inliers := 9, num_unique_inliers := 1, residual_sum := 0 } :
        UniqueInlierSupportMeasurer.Support ℚ)
      { num_inliers := 2, num_unique_inliers := 2, residual_sum := 4 }
      ({ num_inliers := 0, score := 1 } : MEstimatorSupportMeasurer.Support ℚ)
      { num_inliers := 7, score := 2 }
      (by decide) (by decide) (by norm_num)⟩

/-- C12: for every threshold, `Evaluate` on the empty residual vector returns the
zero-valued support in all three strategies: Inlier gives `num_inliers = 0` and
`residual_sum = 0`; Unique-Sample, constructed with an empty identifier vector, returns
(without throwing) `num_inliers = 0`, `num_unique_inliers = 0` and `residual_sum = 0`;
M-Estimator gives `num_inliers = 0` and `score = 0`. The Inlier and M-Estimator `Evaluate`
return a support on every input. -/
theorem Evaluate_nil [LinearOrderedField α] (max_residual : α) (residuals : List α) :
    InlierSupportMeasurer.Evaluate ([] : List α) max_residual
        = { num_inliers := 0, residual_sum := 0 }
      ∧ UniqueInlierSupportMeasurer.Evaluate { unique_sample_ids_ := [] } ([] : List α)
          max_residual
        = Except.ok { num_inliers := 0, num_unique_inliers := 0, residual_sum := 0 }
      ∧ MEstimatorSupportMeasurer.Evaluate ([] : List α) max_residual
        = { num_inliers := 0, score := 0 }
      ∧ (∃ s, InlierSupportMeasurer.Evaluate residuals max_residual = s)
      ∧ (∃ s, MEstimatorSupportMeasurer.Evaluate residuals max_residual = s) := by
  refine ⟨rfl, ?_, rfl, ⟨_, rfl⟩, ⟨_, rfl⟩⟩
  simp [UniqueInlierSupportMeasurer.Evaluate, THROW_CHECK_EQ,
    UniqueInlierSupportMeasurer.EvaluateLoop]

/-- C13 (counterexample): on the all-outlier vector `[10]` with threshold `1` the
M-Estimator `Evaluate` returns `num_inliers = 0` and `score = 1`, which is not zero. -/
theorem MEstimator_all_outliers_score_ne_zero :
    (∀ r ∈ ([10] : List ℚ), (1 : ℚ) < r)
      ∧ MEstimatorSupportMeasurer.Evaluate ([10] : List ℚ) 1 = { num_inliers := 0, score := 1 }
      ∧ (MEstimatorSupportMeasurer.Evaluate ([10] : List ℚ) 1).score ≠ 0 := by
  refine ⟨by norm_num, ?_, ?_⟩
  · rw [MEstimatorSupportMeasurer.mestimator_Evaluate_eq]
    norm_num [List.filter]
  · rw [MEstimatorSupportMeasurer.score_eq]
    norm_num

/-- C13 (amended): for every threshold and every all-outlier residual vector (every entry
strictly greater than the threshold; for Unique-Sample with an identifier vector of the
same length), `Evaluate` succeeds in every strategy; every field of the Inlier and
Unique-Sample supports is zero and the M-Estimator `num_inliers` is zero, while the
M-Estimator `score` is the threshold accumulated once per residual, starting from zero
(`score += max_residual` in each iteration). -/
theorem Evaluate_all_outliers [LinearOrderedField α] (self : UniqueInlierSupportMeasurer)
    (residuals : List α) (max_residual : α)
    (hout : ∀ r ∈ residuals, max_residual < r)
    (hlen : residuals.length = self.unique_sample_ids_.length) :
    InlierSupportMeasurer.Evaluate residuals max_residual
        = { num_inliers := 0, residual_sum := 0 }
      ∧ self.Evaluate residuals max_residual
        = Except.ok { num_inliers := 0, num_unique_inliers := 0, residual_sum := 0 }
      ∧ MEstimatorSupportMeasurer.Evaluate residuals max_residual
        = { num_inliers := 0
            score := residuals.foldl (fun score _ => score + max_residual) 0 } := by
  refine ⟨?_, ?_, ?_⟩
  · rw [InlierSupportMeasurer.inlier_Evaluate_eq,
      filter_le_eq_nil_of_all_gt residuals max_residual hout]
    rfl
  · rw [UniqueInlierSupportMeasurer.unique_Evaluate_eq self residuals max_residual hlen,
      filter_le_eq_nil_of_all_gt residuals max_residual hout,
      inlierPositions_eq_empty_of_all_gt residuals max_residual hout]
    rfl
  · exact MEstimatorSupportMeasurer.foldl_EvaluateStep_of_all_gt residuals max_residual hout _

/-- Witness for C13 (amended): identifiers `[7, 7]`, residuals `[2, 3]`, threshold `1`;
the M-Estimator score is `0 + 1 + 1`. -/
theorem Evaluate_all_outliers_witness :
    ((∀ r ∈ ([2, 3] : List ℚ), (1 : ℚ) < r)
        ∧ ([2, 3] : List ℚ).length
          = (UniqueInlierSupportMeasurer.mk [7, 7]).unique_sample_ids_.length)
      ∧ (InlierSupportMeasurer.Evaluate ([2, 3] : List ℚ) 1
          = { num_inliers := 0, residual_sum := 0 }
        ∧ UniqueInlierSupportMeasurer.Evaluate { unique_sample_ids_ := [7, 7] }
            ([2, 3] : List ℚ) 1
          = Except.ok { num_inliers := 0, num_unique_inliers := 0, residual_sum := 0 }
        ∧ MEstimatorSupportMeasurer.Evaluate ([2, 3] : List ℚ) 1
          = { num_inliers := 0
              score := ([2, 3] : List ℚ).foldl (fun score _ => score + 1) 0 }) :=
  ⟨⟨by norm_num, rfl⟩,
    Evaluate_all_outliers ⟨[7, 7]⟩ [2, 3] 1 (by norm_num) rfl⟩

/-- C14 (counterexample): on the non-negative vector `[0]` with threshold `0` the Inlier
`Evaluate` returns `num_inliers = 1`: the entry `0` passes the inclusive test `0 ≤ 0`, so
the inlier count is not zero. -/
theorem Inlier_zero_threshold_num_inliers_ne_zero :
    (∀ r ∈ ([0] : List ℚ), (0 : ℚ) ≤ r)
      ∧ InlierSupportMeasurer.Evaluate ([0] : List ℚ) 0 = { num_inliers := 1, residual_sum := 0 }
      ∧ (InlierSupportMeasurer.Evaluate ([0] : List ℚ) 0).num_inliers ≠ 0 := by
  refine ⟨by simp, ?_, ?_⟩
  · simp [InlierSupportMeasurer.inlier_Evaluate_eq]
  · simp [InlierSupportMeasurer.inlier_Evaluate_eq]

/-- C14 (amended): for every vector of non-negative residuals (for Unique-Sample with an
identifier vector of the same length), `Evaluate` with threshold `max_residual = 0`
succeeds in every strategy and returns `residual_sum = 0` (Inlier, Unique-Sample) and
`score = 0` (M-Estimator); `num_inliers` is the number of entries equal to `0` (the inlier
test is inclusive) and `num_unique_inliers` the number of distinct identifiers at those
entries. When every residual is strictly positive, every field is zero. -/
theorem Evaluate_zero_threshold [LinearOrderedField α] (self : UniqueInlierSupportMeasurer)
    (residuals : List α)
    (hnn : ∀ r ∈ residuals, 0 ≤ r)
    (hlen : residuals.length = self.unique_sample_ids_.length) :
    InlierSupportMeasurer.Evaluate residuals 0
        = { num_inliers := (residuals.filter (fun r => r = 0)).length, residual_sum := 0 }
      ∧ self.Evaluate residuals 0
        = Except.ok
            { num_inliers := (residuals.filter (fun r => r = 0)).length
              num_unique_inliers :=
                (((Finset.range residuals.length).filter
                    (fun i => residuals.getD i 0 = 0)).image
                  (fun i => self.unique_sample_ids_.getD i 0)).card
              residual_sum := 0 }
      ∧ MEstimatorSupportMeasurer.Evaluate residuals 0
        = { num_inliers := (residuals.filter (fun r => r = 0)).length, score := 0 }
      ∧ ((∀ r ∈ residuals, 0 < r) →
          InlierSupportMeasurer.Evaluate residuals 0 = { num_inliers := 0, residual_sum := 0 }
            ∧ self.Evaluate residuals 0
              = Except.ok { num_inliers := 0, num_unique_inliers := 0, residual_sum := 0 }
            ∧ MEstimatorSupportMeasurer.Evaluate residuals 0
              = { num_inliers := 0, score := 0 }) := by
  refine ⟨?_, ?_, ?_, fun hpos => ⟨?_, ?_, ?_⟩⟩
  · rw [InlierSupportMeasurer.inlier_Evaluate_eq, filter_le_zero_eq_of_nonneg residuals hnn,
      sum_filter_eq_zero]
  · rw [UniqueInlierSupportMeasurer.unique_Evaluate_eq self residuals 0 hlen,
      filter_le_zero_eq_of_nonneg residuals hnn, sum_filter_eq_zero,
      inlierPositions_zero_eq_of_nonneg residuals hnn]
  · rw [MEstimatorSupportMeasurer.mestimator_Evaluate_eq,
      filter_le_zero_eq_of_nonneg residuals hnn, sum_contribution_zero_of_nonneg residuals hnn]
  · rw [InlierSupportMeasurer.inlier_Evaluate_eq, filter_le_eq_nil_of_all_gt residuals 0 hpos]
    rfl
  · rw [UniqueInlierSupportMeasurer.unique_Evaluate_eq self residuals 0 hlen,
      filter_le_eq_nil_of_all_gt residuals 0 hpos,
      inlierPositions_eq_empty_of_all_gt residuals 0 hpos]
    rfl
  · rw [MEstimatorSupportMeasurer.mestimator_Evaluate_eq,
      filter_le_eq_nil_of_all_gt residuals 0 hpos,
      sum_contribution_zero_of_nonneg residuals hnn]
    rfl

/-- Witness for C14 (amended): identifiers `[7, 9, 7]` with the non-negative residuals
`[0, 1/2, 0]` (two entries equal to zero, one identifier among them), and identifiers
`[7, 7]` with the strictly positive residuals `[1/2, 3]`. -/
theorem Evaluate_zero_threshold_witness :
    ((∀ r ∈ ([0, 1/2, 0] : List ℚ), (0 : ℚ) ≤ r)
        ∧ ([0, 1/2, 0] : List ℚ).length
          = (UniqueInlierSupportMeasurer.mk [7, 9, 7]).unique_sample_ids_.length)
      ∧ (InlierSupportMeasurer.Evaluate ([0, 1/2, 0] : List ℚ) 0
          = { num_inliers := (([0, 1/2, 0] : List ℚ).filter (fun r => r = 0)).length,
              residual_sum := 0 }
        ∧ MEstimatorSupportMeasurer.Evaluate ([0, 1/2, 0] : List ℚ) 0
          = { num_inliers := (([0, 1/2, 0] : List ℚ).filter (fun r => r = 0)).length,
              score := 0 })
      ∧ ((∀ r ∈ ([1/2, 3] : List ℚ), (0 : ℚ) < r)
        ∧ ([1/2, 3] : List ℚ).length
          = (UniqueInlierSupportMeasurer.mk [7, 7]).unique_sample_ids_.length)
      ∧ (InlierSupportMeasurer.Evaluate ([1/2, 3] : List ℚ) 0
          = { num_inliers := 0, residual_sum := 0 }
        ∧ UniqueInlierSupportMeasurer.Evaluate { unique_sample_ids_ := [7, 7] }
            ([1/2, 3] : List ℚ) 0
          = Except.ok { num_inliers := 0, num_unique_inliers := 0, residual_sum := 0 }
        ∧ MEstimatorSupportMeasurer.Evaluate ([1/2, 3] : List ℚ) 0
          = { num_inliers := 0, score := 0 }) := by
  have hnn1 : ∀ r ∈ ([0, 1/2, 0] : List ℚ), (0 : ℚ) ≤ r := by norm_num
  have hpos2 : ∀ r ∈ ([1/2, 3] : List ℚ), (0 : ℚ) < r := by norm_num
  have h1 := Evaluate_zero_threshold ⟨[7, 9, 7]⟩ ([0, 1/2, 0] : List ℚ) hnn1 rfl
  have h2 := Evaluate_zero_threshold ⟨[7, 7]⟩ ([1/2, 3] : List ℚ)
    (fun r hr => le_of_lt (hpos2 r hr)) rfl
  exact ⟨⟨hnn1, rfl⟩, ⟨h1.1, h1.2.2.1⟩, ⟨hpos2, rfl⟩, h2.2.2.2 hpos2⟩

/-- C15 (counterexample): on the non-negative vector `[1]` with the negative threshold
`-1` the M-Estimator `Evaluate` returns `score = -1`, which is not `≥ 0`. -/
theorem MEstimator_score_negative_threshold :
    (∀ r ∈ ([1] : List ℚ), (0 : ℚ) ≤ r)
      ∧ MEstimatorSupportMeasurer.Evaluate ([1] : List ℚ) (-1)
          = { num_inliers := 0, score := -1 }
      ∧ ¬ (0 ≤ (MEstimatorSupportMeasurer.Evaluate ([1] : List ℚ) (-1)).score) := by
  refine ⟨by simp, ?_, ?_⟩
  · rw [MEstimatorSupportMeasurer.mestimator_Evaluate_eq]
    norm_num [List.filter]
  · rw [MEstimatorSupportMeasurer.score_eq]
    norm_num

/-- C15 (amended): for every residual vector of non-negative reals and every non-negative
threshold `max_residual`, the score returned by `MEstimatorSupportMeasurer::Evaluate`
is `≥ 0`. -/
theorem MEstimatorSupportMeasurer.Evaluate_score_nonneg [LinearOrderedField α]
    (residuals : List α) (max_residual : α)
    (hnn : ∀ r ∈ residuals, 0 ≤ r) (ht : 0 ≤ max_residual) :
    0 ≤ (Evaluate residuals max_residual).score := by
  rw [score_eq]
  exact sum_contribution_nonneg residuals max_residual hnn ht

/-- Witness for C15 (amended): residuals `[1/2, 3]` with threshold `1`. -/
theorem MEstimatorSupportMeasurer.Evaluate_score_nonneg_witness :
    ((∀ r ∈ ([1/2, 3] : List ℚ), (0 : ℚ) ≤ r) ∧ (0 : ℚ) ≤ 1)
      ∧ 0 ≤ (Evaluate ([1/2, 3] : List ℚ) 1).score :=
  ⟨⟨by norm_num, by norm_num⟩,
    MEstimatorSupportMeasurer.Evaluate_score_nonneg [1/2, 3] 1 (by norm_num) (by norm_num)⟩

/-- C17: the three strategies apply the same inlier test: for every residual vector,
every threshold and every identifier vector of the same length, the `num_inliers` returned
by `UniqueInlierSupportMeasurer::Evaluate` and by `MEstimatorSupportMeasurer::Evaluate`
both equal the `num_inliers` returned by `InlierSupportMeasurer::Evaluate`, and the
Unique-Sample `residual_sum` equals the Inlier `residual_sum`. -/
theorem Evaluate_same_inlier_test [LinearOrderedField α] (self : UniqueInlierSupportMeasurer)
    (residuals : List α) (max_residual : α)
    (hlen : residuals.length = self.unique_sample_ids_.length) :
    (∃ s, self.Evaluate residuals max_residual = Except.ok s
        ∧ s.num_inliers = (InlierSupportMeasurer.Evaluate residuals max_residual).num_inliers
        ∧ s.residual_sum = (InlierSupportMeasurer.Evaluate residuals max_residual).residual_sum)
      ∧ (MEstimatorSupportMeasurer.Evaluate residuals max_residual).num_inliers
        = (InlierSupportMeasurer.Evaluate residuals max_residual).num_inliers := by
  refine ⟨⟨_, UniqueInlierSupportMeasurer.unique_Evaluate_eq self residuals max_residual hlen,
    ?_, ?_⟩, ?_⟩
  · rw [InlierSupportMeasurer.inlier_Evaluate_eq]
  · rw [InlierSupportMeasurer.inlier_Evaluate_eq]
  · rw [InlierSupportMeasurer.inlier_Evaluate_eq,
      MEstimatorSupportMeasurer.mestimator_Evaluate_eq]

/-- Witness for C17: identifiers `[7, 7, 9]`, residuals `[1/10, 2, 1/5]`, threshold
`1/2`. -/
theorem Evaluate_same_inlier_test_witness :
    ([1/10, 2, 1/5] : List ℚ).length
        = (UniqueInlierSupportMeasurer.mk [7, 7, 9]).unique_sample_ids_.length
      ∧ ((∃ s, UniqueInlierSupportMeasurer.Evaluate { unique_sample_ids_ := [7, 7, 9] }
            ([1/10, 2, 1/5] : List ℚ) (1/2) = Except.ok s
          ∧ s.num_inliers
            = (InlierSupportMeasurer.Evaluate ([1/10, 2, 1/5] : List ℚ) (1/2)).num_inliers
          ∧ s.residual_sum
            = (InlierSupportMeasurer.Evaluate ([1/10, 2, 1/5] : List ℚ) (1/2)).residual_sum)
        ∧ (MEstimatorSupportMeasurer.Evaluate ([1/10, 2, 1/5] : List ℚ) (1/2)).num_inliers
          = (InlierSupportMeasurer.Evaluate ([1/10, 2, 1/5] : List ℚ) (1/2)).num_inliers) :=
  ⟨rfl, Evaluate_same_inlier_test ⟨[7, 7, 9]⟩ ([1/10, 2, 1/5] : List ℚ) (1/2) rfl⟩

/-- C18: the M-Estimator score decomposes into the hard-threshold support plus a capped
outlier penalty: for every residual vector of length `n` and every threshold `t`,
`MEstimatorSupportMeasurer::Evaluate(residuals, t).score` equals
`InlierSupportMeasurer::Evaluate(residuals, t).residual_sum + (n - num_inliers) * t`, where
`num_inliers ≤ n`; consequently `score ≤ n * t` for every input. -/
theorem MEstimator_score_decomposition [LinearOrderedField α] (residuals : List α)
    (max_residual : α) :
    (MEstimatorSupportMeasurer.Evaluate residuals max_residual).score
        = (InlierSupportMeasurer.Evaluate residuals max_residual).residual_sum
          + ((residuals.length : α)
              - ((InlierSupportMeasurer.Evaluate residuals max_residual).num_inliers : α))
            * max_residual
      ∧ (MEstimatorSupportMeasurer.Evaluate residuals max_residual).score
        = (InlierSupportMeasurer.Evaluate residuals max_residual).residual_sum
          + ((residuals.length
              - (InlierSupportMeasurer.Evaluate residuals max_residual).num_inliers : Nat) : α)
            * max_residual
      ∧ (InlierSupportMeasurer.Evaluate residuals max_residual).num_inliers ≤ residuals.length
      ∧ (MEstimatorSupportMeasurer.Evaluate residuals max_residual).score
        ≤ (residuals.length : α) * max_residual := by
  have hle : (residuals.filter (fun r => r ≤ max_residual)).length ≤ residuals.length :=
    List.length_filter_le _ _
  refine ⟨?_, ?_, ?_, ?_⟩
  · rw [MEstimatorSupportMeasurer.score_eq, InlierSupportMeasurer.inlier_Evaluate_eq]
    exact sum_contribution_eq residuals max_residual
  · rw [MEstimatorSupportMeasurer.score_eq, InlierSupportMeasurer.inlier_Evaluate_eq]
    simp only [Nat.cast_sub hle]
    exact sum_contribution_eq residuals max_residual
  · rw [InlierSupportMeasurer.inlier_Evaluate_eq]
    exact hle
  · rw [MEstimatorSupportMeasurer.score_eq]
    exact sum_contribution_le residuals max_residual

/-- C19: `UniqueInlierSupportMeasurer::IsLeftBetter` is a strict weak order on supports:
it is irreflexive, asymmetric and transitive, "neither is better" is transitive, and
`IsLeftBetter(a, b)` and `IsLeftBetter(b, a)` are both false exactly when `a` and `b` agree
on all three fields. -/
theorem UniqueInlierSupportMeasurer.IsLeftBetter_strict_weak_order [LinearOrderedField α]
    (a b c : Support α) :
    IsLeftBetter a a = false
      ∧ (IsLeftBetter a b = true → IsLeftBetter b a = false)
      ∧ (IsLeftBetter a b = true → IsLeftBetter b c = true → IsLeftBetter a c = true)
      ∧ (IsLeftBetter a b = false ∧ IsLeftBetter b a = false →
          IsLeftBetter b c = false ∧ IsLeftBetter c b = false →
          IsLeftBetter a c = false ∧ IsLeftBetter c a = false)
      ∧ (IsLeftBetter a b = false ∧ IsLeftBetter b a = false ↔
          a.num_inliers = b.num_inliers ∧ a.num_unique_inliers = b.num_unique_inliers
            ∧ a.residual_sum = b.residual_sum) := by
  have tie : ∀ x y : Support α,
      (IsLeftBetter x y = false ∧ IsLeftBetter y x = false ↔
        x.num_inliers = y.num_inliers ∧ x.num_unique_inliers = y.num_unique_inliers
          ∧ x.residual_sum = y.residual_sum) := by
    intro x y
    simp only [unique_isLeftBetter_eq_false_iff]
    constructor
    · rintro ⟨h | ⟨h1, h2⟩ | ⟨h1, h2, h3⟩, h4 | ⟨h4, h5⟩ | ⟨h4, h5, h6⟩⟩
      all_goals first
        | omega
        | exact ⟨h2, h1, le_antisymm h6 h3⟩
    · rintro ⟨h1, h2, h3⟩
      exact ⟨Or.inr (Or.inr ⟨h2, h1, le_of_eq h3.symm⟩),
        Or.inr (Or.inr ⟨h2.symm, h1.symm, le_of_eq h3⟩)⟩
  refine ⟨?_, ?_, ?_, ?_, tie a b⟩
  · simp [unique_isLeftBetter_eq_false_iff]
  · simp only [unique_isLeftBetter_iff, unique_isLeftBetter_eq_false_iff]
    rintro (h | ⟨h1, h2⟩ | ⟨h1, h2, h3⟩)
    · exact Or.inl h
    · exact Or.inr (Or.inl ⟨h1.symm, h2⟩)
    · exact Or.inr (Or.inr ⟨h1.symm, h2.symm, le_of_lt h3⟩)
  · simp only [unique_isLeftBetter_iff]
    rintro (h | ⟨h1, h2⟩ | ⟨h1, h2, h3⟩) (h4 | ⟨h4, h5⟩ | ⟨h4, h5, h6⟩)
    all_goals first
      | exact Or.inl (by omega)
      | exact Or.inr (Or.inl ⟨by omega, by omega⟩)
      | exact Or.inr (Or.inr ⟨by omega, by omega, lt_trans h3 h6⟩)
  · intro hab hbc
    obtain ⟨h1, h2, h3⟩ := (tie a b).mp hab
    obtain ⟨h4, h5, h6⟩ := (tie b c).mp hbc
    exact (tie a c).mpr ⟨h1.trans h4, h2.trans h5, h3.trans h6⟩

/-- Witness for C19: the chain `(inliers 2, distinct 2, sum 1)`, `(5, 1, 0)`, `(4, 1, 0)`,
each better than the next, and the tie of the first support with itself. -/
theorem UniqueInlierSupportMeasurer.IsLeftBetter_strict_weak_order_witness :
    (IsLeftBetter ({ num_inliers := 2, num_unique_inliers := 2, residual_sum := 1 } : Support ℚ)
          { num_inliers := 5, num_unique_inliers := 1, residual_sum := 0 } = true
        ∧ IsLeftBetter
          ({ num_inliers := 5, num_unique_inliers := 1, residual_sum := 0 } : Support ℚ)
          { num_inliers := 4, num_unique_inliers := 1, residual_sum := 0 } = true)
      ∧ (IsLeftBetter
          ({ num_inliers := 5, num_unique_inliers := 1, residual_sum := 0 } : Support ℚ)
          { num_inliers := 2, num_unique_inliers := 2, residual_sum := 1 } = false
        ∧ IsLeftBetter
          ({ num_inliers := 2, num_unique_inliers := 2, residual_sum := 1 } : Support ℚ)
          { num_inliers := 4, num_unique_inliers := 1, residual_sum := 0 } = true)
      ∧ IsLeftBetter
          ({ num_inliers := 2, num_unique_inliers := 2, residual_sum := 1 } : Support ℚ)
          { num_inliers := 2, num_unique_inliers := 2, residual_sum := 1 } = false := by
  have hab : IsLeftBetter
      ({ num_inliers := 2, num_unique_inliers := 2, residual_sum := 1 } : Support ℚ)
      { num_inliers := 5, num_unique_inliers := 1, residual_sum := 0 } = true := by
    simp [IsLeftBetter]
  have hbc : IsLeftBetter
      ({ num_inliers := 5, num_unique_inliers := 1, residual_sum := 0 } : Support ℚ)
      { num_inliers := 4, num_unique_inliers := 1, residual_sum := 0 } = true := by
    simp [IsLeftBetter]
  have h := UniqueInlierSupportMeasurer.IsLeftBetter_strict_weak_order
    ({ num_inliers := 2, num_unique_inliers := 2, residual_sum := 1 } : Support ℚ)
    { num_inliers := 5, num_unique_inliers := 1, residual_sum := 0 }
    { num_inliers := 4, num_unique_inliers := 1, residual_sum := 0 }
  exact ⟨⟨hab, hbc⟩, ⟨h.2.1 hab, h.2.2.1 hab hbc⟩, h.1⟩

/-- C20: the hard-threshold support is monotone in the threshold: for every residual
vector and all thresholds `t1 ≤ t2`, `InlierSupportMeasurer::Evaluate(residuals, t1)` has
at most the `num_inliers` of `Evaluate(residuals, t2)`, and when all residuals are
non-negative also at most its `residual_sum`. -/
theorem InlierSupportMeasurer.Evaluate_mono_threshold [LinearOrderedField α]
    (residuals : List α) (t1 t2 : α) (h : t1 ≤ t2) :
    (Evaluate residuals t1).num_inliers ≤ (Evaluate residuals t2).num_inliers
      ∧ ((∀ r ∈ residuals, 0 ≤ r) →
          (Evaluate residuals t1).residual_sum ≤ (Evaluate residuals t2).residual_sum) := by
  rw [inlier_Evaluate_eq, inlier_Evaluate_eq]
  exact ⟨length_filter_le_mono residuals h, fun hnn => sum_filter_le_mono residuals h hnn⟩

/-- Witness for C20: the non-negative residuals `[1/2, 2, 3]` with thresholds `1 ≤ 2`. -/
theorem InlierSupportMeasurer.Evaluate_mono_threshold_witness :
    ((1 : ℚ) ≤ 2 ∧ ∀ r ∈ ([1/2, 2, 3] : List ℚ), (0 : ℚ) ≤ r)
      ∧ (Evaluate ([1/2, 2, 3] : List ℚ) 1).num_inliers
        ≤ (Evaluate ([1/2, 2, 3] : List ℚ) 2).num_inliers
      ∧ (Evaluate ([1/2, 2, 3] : List ℚ) 1).residual_sum
        ≤ (Evaluate ([1/2, 2, 3] : List ℚ) 2).residual_sum := by
  have hnn : ∀ r ∈ ([1/2, 2, 3] : List ℚ), (0 : ℚ) ≤ r := by norm_num
  have h := InlierSupportMeasurer.Evaluate_mono_threshold ([1/2, 2, 3] : List ℚ) 1 2
    (by norm_num)
  exact ⟨⟨by norm_num, hnn⟩, h.1, h.2 hnn⟩

end colmap
